import Mathlib

/-!
Verification of Assets/Server/server_tcp.py, a serial-to-TCP bridge: the
script opens a serial port, accepts a single TCP client, and forwards
newline-terminated lines read from the serial port to the client until the
session ends, closing both resources in a final cleanup step.

The embedding models one run of the script as a trace of observable events
(socket calls, byte writes, console echoes, resource closes, a propagating
exception), parameterised by the outcome of the serial open, an optional
failure during socket setup, the sequence of readline results, and the
exception that eventually ends the infinite forwarding loop.
-/

namespace ServerTCP

/-- Configuration constant SERIAL_PORT of the script. -/
def SERIAL_PORT : String := "COM3"

/-- Configuration constant BAUD_RATE of the script. -/
def BAUD_RATE : Nat := 115200

/-- Configuration constant SERVER_IP of the script. -/
def SERVER_IP : String := "127.0.0.1"

/-- Configuration constant TCP_PORT of the script. -/
def TCP_PORT : Nat := 8051

/-- Whitespace as Python str.isspace classifies it, the set str.strip with
no argument removes: tab, line feed, vertical tab, form feed, carriage
return (U+0009 to U+000D), the separators U+001C to U+001F, space, next
line U+0085, no-break space U+00A0, ogham space mark U+1680, the spaces
U+2000 to U+200A, line separator U+2028, paragraph separator U+2029,
narrow no-break space U+202F, medium mathematical space U+205F and
ideographic space U+3000. -/
def pyIsSpace (c : Char) : Bool :=
  (9 ≤ c.toNat && c.toNat ≤ 13) || (28 ≤ c.toNat && c.toNat ≤ 31) ||
    c.toNat = 32 || c.toNat = 133 || c.toNat = 160 || c.toNat = 5760 ||
    (8192 ≤ c.toNat && c.toNat ≤ 8202) || c.toNat = 8232 ||
    c.toNat = 8233 || c.toNat = 8239 || c.toNat = 8287 || c.toNat = 12288

/-- Remove the leading whitespace characters of a character list. -/
def dropLeading : List Char → List Char
  | [] => []
  | c :: cs => if pyIsSpace c then dropLeading cs else c :: cs

/-- Python str.strip with no argument: remove leading and trailing
whitespace. -/
def pyStrip (s : String) : String :=
  String.mk ((dropLeading ((dropLeading s.data).reverse)).reverse)

/-- UTF-8 encoding of one character, as the byte values str.encode
produces for its code point. -/
def utf8EncodeChar (c : Char) : List Nat :=
  if c.toNat < 128 then [c.toNat]
  else if c.toNat < 2048 then [192 + c.toNat / 64, 128 + c.toNat % 64]
  else if c.toNat < 65536 then
    [224 + c.toNat / 4096, 128 + (c.toNat / 64) % 64, 128 + c.toNat % 64]
  else
    [240 + c.toNat / 262144, 128 + (c.toNat / 4096) % 64,
      128 + (c.toNat / 64) % 64, 128 + c.toNat % 64]

/-- UTF-8 encoding of a character list. -/
def utf8EncodeList : List Char → List Nat
  | [] => []
  | c :: cs => utf8EncodeChar c ++ utf8EncodeList cs

/-- UTF-8 encoding of a string: Python str.encode with encoding utf-8. -/
def utf8Encode (s : String) : List Nat := utf8EncodeList s.data

/-- Python exceptions relevant to the script. otherErr stands for any
exception other than the four the script names. -/
inductive PyExc where
  | serialErr
  | connReset
  | brokenPipe
  | keyboardInt
  | otherErr (code : Nat)
  deriving DecidableEq

/-- Which call of the socket setup sequence raises; every one of them runs
outside any try block of the script. -/
inductive SockStage where
  | atCreate
  | atBind
  | atListen
  | atAccept
  deriving DecidableEq

/-- Observable events of one run of the script. -/
inductive Event where
  | serialOpen
  | reportSerialError
  | procExit
  | sockCreate
  | sockBind
  | sockListen
  | sockAccept
  | send (buf : List Nat)
  | echo (line : String)
  | idleSleep
  | connClose
  | reportDisconnect
  | reportInterrupt
  | serialClose
  | sockClose
  | propagate (e : PyExc)
  deriving DecidableEq

/-- The exceptions the except clauses after the forwarding loop catch:
ConnectionResetError and BrokenPipeError in the first clause,
KeyboardInterrupt in the second. -/
def caughtByLoop : PyExc → Bool
  | PyExc.connReset => true
  | PyExc.brokenPipe => true
  | PyExc.keyboardInt => true
  | _ => false

/-- Events of one iteration of the while loop on a readline result
(decoded to text): strip the line; when it is non-empty, sendall the line
followed by one newline encoded as UTF-8, then print the line; in every
case sleep 0.01 s at the end of the iteration. -/
def stepEvents (r : String) : List Event :=
  if pyStrip r = "" then [Event.idleSleep]
  else
    [Event.send (utf8Encode (pyStrip r ++ "\n")), Event.echo (pyStrip r),
      Event.idleSleep]

/-- Events of the while loop over a sequence of readline results, up to
the point where an exception interrupts the loop. -/
def loopTrace : List String → List Event
  | [] => []
  | r :: rs => stepEvents r ++ loopTrace rs

/-- Events of the except clauses on the exception that ended the loop. -/
def handlerEvents : PyExc → List Event
  | PyExc.connReset => [Event.reportDisconnect]
  | PyExc.brokenPipe => [Event.reportDisconnect]
  | PyExc.keyboardInt => [Event.reportInterrupt]
  | _ => []

/-- Events already performed when socket setup step st raises: the events
of the calls that completed before it. -/
def sockFailEvents : SockStage → List Event
  | SockStage.atCreate => []
  | SockStage.atBind => [Event.sockCreate]
  | SockStage.atListen => [Event.sockCreate, Event.sockBind]
  | SockStage.atAccept => [Event.sockCreate, Event.sockBind, Event.sockListen]

/-- Trace of one whole run of the script. When serialFails, serial.Serial
raised SerialException: the except clause reports the error and the
process exits before any socket call. Otherwise, when a socket setup call
raises (sockFail), the exception propagates unhandled and nothing is
closed, since the try block only starts after accept returns. Otherwise
the with-block runs the loop on reads until loopExc ends it: the with
statement closes conn, a matching except clause logs, the finally block
closes the serial handle and the listening socket, and an exception no
clause matched propagates afterwards. -/
def runBridge (serialFails : Bool) (sockFail : Option (SockStage × PyExc))
    (reads : List String) (loopExc : PyExc) : List Event :=
  if serialFails then [Event.reportSerialError, Event.procExit]
  else
    Event.serialOpen ::
      match sockFail with
      | some (st, e) => sockFailEvents st ++ [Event.propagate e]
      | none =>
          [Event.sockCreate, Event.sockBind, Event.sockListen,
              Event.sockAccept] ++
            loopTrace reads ++ [Event.connClose] ++ handlerEvents loopExc ++
            [Event.serialClose, Event.sockClose] ++
            (if caughtByLoop loopExc then [] else [Event.propagate loopExc])

/-- The payload of a send event. -/
def sendOf : Event → Option (List Nat)
  | Event.send b => some b
  | _ => none

/-- The payload of an echo event. -/
def echoOf : Event → Option String
  | Event.echo l => some l
  | _ => none

/-- The byte buffers written to the client connection, in order. -/
def sentBuffers (t : List Event) : List (List Nat) := t.filterMap sendOf

/-- The lines echoed to the local output stream, in order. -/
def echoedLines (t : List Event) : List String := t.filterMap echoOf

/-- The data of String.mk is its argument. -/
theorem data_mk (l : List Char) : (String.mk l).data = l := rfl

/-- A string differing from the empty string has non-empty data. -/
theorem data_ne_nil (s : String) (h : s ≠ "") : s.data ≠ [] := by
  intro hd
  apply h
  cases s with
  | mk l => cases hd; rfl

/-- Every event of a loop trace is an idle sleep, a send or an echo. -/
theorem mem_loopTrace_shape (reads : List String) :
    ∀ ev ∈ loopTrace reads,
      ev = Event.idleSleep ∨ (∃ b, ev = Event.send b) ∨
        ∃ l, ev = Event.echo l := by
  induction reads with
  | nil =>
      intro ev h
      simp [loopTrace] at h
  | cons r rs ih =>
      intro ev h
      simp only [loopTrace, List.mem_append] at h
      rcases h with h | h
      · by_cases hs : pyStrip r = ""
        · simp [stepEvents, hs] at h
          exact Or.inl h
        · simp [stepEvents, hs] at h
          rcases h with h | h | h
          · exact Or.inr (Or.inl ⟨_, h⟩)
          · exact Or.inr (Or.inr ⟨_, h⟩)
          · exact Or.inl h
      · exact ih ev h

/-- An event that is neither an idle sleep nor a send nor an echo is not
in a loop trace. -/
theorem not_mem_loopTrace (ev : Event) (h1 : ev ≠ Event.idleSleep)
    (h2 : ∀ b, ev ≠ Event.send b) (h3 : ∀ l, ev ≠ Event.echo l)
    (reads : List String) : ev ∉ loopTrace reads := by
  intro hm
  rcases mem_loopTrace_shape reads ev hm with h | ⟨b, h⟩ | ⟨l, h⟩
  · exact h1 h
  · exact h2 b h
  · exact h3 l h

/-- No propagate event is in a loop trace. -/
theorem propagate_not_mem_loopTrace (x : PyExc) (reads : List String) :
    Event.propagate x ∉ loopTrace reads :=
  not_mem_loopTrace _ (by simp) (fun _ => by simp) (fun _ => by simp) reads

/-- No accept event is in a loop trace. -/
theorem sockAccept_not_mem_loopTrace (reads : List String) :
    Event.sockAccept ∉ loopTrace reads :=
  not_mem_loopTrace _ (by simp) (fun _ => by simp) (fun _ => by simp) reads

/-- The run trace of a successful setup, written as one append chain. -/
theorem runBridge_ok (reads : List String) (e : PyExc) :
    runBridge false none reads e =
      [Event.serialOpen, Event.sockCreate, Event.sockBind, Event.sockListen,
          Event.sockAccept] ++
        loopTrace reads ++ [Event.connClose] ++ handlerEvents e ++
        [Event.serialClose, Event.sockClose] ++
        (if caughtByLoop e then [] else [Event.propagate e]) := by
  simp [runBridge]

/-- Only the loop contributes send events to a successful run. -/
theorem sentBuffers_runBridge (reads : List String) (e : PyExc) :
    sentBuffers (runBridge false none reads e) =
      sentBuffers (loopTrace reads) := by
  cases e <;>
    simp [runBridge_ok, sentBuffers, handlerEvents, caughtByLoop,
      List.filterMap_append, sendOf]

/-- Only the loop contributes echo events to a successful run. -/
theorem echoedLines_runBridge (reads : List String) (e : PyExc) :
    echoedLines (runBridge false none reads e) =
      echoedLines (loopTrace reads) := by
  cases e <;>
    simp [runBridge_ok, echoedLines, handlerEvents, caughtByLoop,
      List.filterMap_append, echoOf]

/-- On clean reads (already stripped and non-empty), the loop sends one
newline-terminated buffer per read, in order. -/
theorem sentBuffers_loopTrace_clean (reads : List String)
    (h : ∀ l ∈ reads, pyStrip l = l ∧ l ≠ "") :
    sentBuffers (loopTrace reads) =
      reads.map fun l => utf8Encode (l ++ "\n") := by
  induction reads with
  | nil => rfl
  | cons r rs ih =>
      obtain ⟨hr, hne⟩ := h r (by simp)
      have hrest : ∀ l ∈ rs, pyStrip l = l ∧ l ≠ "" :=
        fun l hl => h l (by simp [hl])
      have hstep : sentBuffers (stepEvents r) = [utf8Encode (r ++ "\n")] := by
        simp [stepEvents, hr, hne, sentBuffers, sendOf]
      calc sentBuffers (loopTrace (r :: rs))
          = sentBuffers (stepEvents r) ++ sentBuffers (loopTrace rs) := by
            simp only [loopTrace, sentBuffers, List.filterMap_append]
        _ = (r :: rs).map fun l => utf8Encode (l ++ "\n") := by
            rw [hstep, ih hrest]
            simp

/-- The sends of the loop are exactly its echoes, each encoded with one
appended newline. -/
theorem sentBuffers_loopTrace_eq_map_echoed (reads : List String) :
    sentBuffers (loopTrace reads) =
      (echoedLines (loopTrace reads)).map fun l => utf8Encode (l ++ "\n") := by
  induction reads with
  | nil => rfl
  | cons r rs ih =>
      by_cases hs : pyStrip r = "" <;>
        · simp only [loopTrace, sentBuffers, echoedLines,
            List.filterMap_append] at ih ⊢
          simp [stepEvents, hs, sendOf, echoOf, ih]

/-- Every buffer sent by the loop is the encoding of a stripped non-empty
readline result followed by a newline. -/
theorem mem_sentBuffers_loopTrace (reads : List String) (b : List Nat)
    (hb : b ∈ sentBuffers (loopTrace reads)) :
    ∃ r, pyStrip r ≠ "" ∧ b = utf8Encode (pyStrip r ++ "\n") := by
  induction reads with
  | nil => simp [loopTrace, sentBuffers] at hb
  | cons r rs ih =>
      simp only [loopTrace, sentBuffers, List.filterMap_append,
        List.mem_append] at hb
      rcases hb with hb | hb
      · by_cases hs : pyStrip r = ""
        · simp [stepEvents, hs, sendOf] at hb
        · simp [stepEvents, hs, sendOf] at hb
          exact ⟨r, hs, hb⟩
      · exact ih hb

/-- The head of a list with its leading whitespace removed is not
whitespace. -/
theorem dropLeading_head_not_space :
    ∀ (l : List Char) (c : Char), (dropLeading l).head? = some c →
      pyIsSpace c = false
  | [], c, h => by simp [dropLeading] at h
  | a :: as, c, h => by
      rw [dropLeading] at h
      cases hsp : pyIsSpace a
      · rw [if_neg (by simp [hsp])] at h
        obtain rfl : a = c := by simpa using h
        exact hsp
      · rw [if_pos (by simp [hsp])] at h
        exact dropLeading_head_not_space as c h

/-- Removing leading whitespace keeps the last element when the result is
non-empty. -/
theorem dropLeading_getLast? :
    ∀ (l : List Char), dropLeading l ≠ [] →
      (dropLeading l).getLast? = l.getLast?
  | [], h => absurd rfl h
  | a :: as, h => by
      rw [dropLeading] at h ⊢
      cases hsp : pyIsSpace a
      · rw [if_neg (by simp [hsp])]
      · rw [if_pos (by simp [hsp])] at h ⊢
        have has : as ≠ [] := by
          intro he
          exact h (by simp [he, dropLeading])
        rw [dropLeading_getLast? as h]
        obtain ⟨b, bs, rfl⟩ := List.exists_cons_of_ne_nil has
        exact List.getLast?_cons_cons.symm

/-- The first character of a stripped string is not whitespace. -/
theorem pyStrip_head_not_space (s : String) (c : Char)
    (h : (pyStrip s).data.head? = some c) : pyIsSpace c = false := by
  rw [pyStrip, data_mk, List.head?_reverse] at h
  have hne : dropLeading ((dropLeading s.data).reverse) ≠ [] := by
    intro he
    rw [he] at h
    simp at h
  rw [dropLeading_getLast? _ hne, List.getLast?_reverse] at h
  exact dropLeading_head_not_space _ _ h

/-- The last character of a stripped string is not whitespace. -/
theorem pyStrip_getLast_not_space (s : String) (c : Char)
    (h : (pyStrip s).data.getLast? = some c) : pyIsSpace c = false := by
  rw [pyStrip, data_mk, List.getLast?_reverse] at h
  exact dropLeading_head_not_space _ _ h

/-- The encoding of a character is never empty. -/
theorem utf8EncodeChar_ne_nil (c : Char) : utf8EncodeChar c ≠ [] := by
  rw [utf8EncodeChar]
  repeat' split
  all_goals simp

/-- The last byte of the encoding of a non-whitespace character is not the
newline byte. -/
theorem utf8EncodeChar_getLast_ne_10 (c : Char) (hc : pyIsSpace c = false)
    (b : Nat) (h : (utf8EncodeChar c).getLast? = some b) : b ≠ 10 := by
  have h10 : c.toNat ≠ 10 := by
    intro he
    rw [pyIsSpace, he] at hc
    simp at hc
  rw [utf8EncodeChar] at h
  by_cases h1 : c.toNat < 128
  · rw [if_pos h1] at h
    simp at h
    omega
  · rw [if_neg h1] at h
    by_cases h2 : c.toNat < 2048
    · rw [if_pos h2] at h
      simp at h
      omega
    · rw [if_neg h2] at h
      by_cases h3 : c.toNat < 65536
      · rw [if_pos h3] at h
        simp at h
        omega
      · rw [if_neg h3] at h
        simp at h
        omega

/-- The encoding of a non-empty character list is non-empty. -/
theorem utf8EncodeList_ne_nil :
    ∀ (cs : List Char), cs ≠ [] → utf8EncodeList cs ≠ []
  | [], h => absurd rfl h
  | c :: cs, _ => by
      rw [utf8EncodeList]
      intro he
      exact utf8EncodeChar_ne_nil c (List.append_eq_nil.mp he).1

/-- The last byte of an encoded list is the last byte of the encoding of
its last character. -/
theorem utf8EncodeList_getLast? :
    ∀ (cs : List Char), cs ≠ [] →
      ∃ c, cs.getLast? = some c ∧
        (utf8EncodeList cs).getLast? = (utf8EncodeChar c).getLast?
  | [], h => absurd rfl h
  | [c], _ => by
      refine ⟨c, by simp, ?_⟩
      simp [utf8EncodeList]
  | c :: d :: cs, _ => by
      obtain ⟨e, he1, he2⟩ := utf8EncodeList_getLast? (d :: cs) (by simp)
      refine ⟨e, by rw [List.getLast?_cons_cons]; exact he1, ?_⟩
      rw [utf8EncodeList,
        List.getLast?_append_of_ne_nil _ (utf8EncodeList_ne_nil _ (by simp))]
      exact he2

/-- The encoding of character lists turns append into append. -/
theorem utf8EncodeList_append :
    ∀ (l m : List Char),
      utf8EncodeList (l ++ m) = utf8EncodeList l ++ utf8EncodeList m
  | [], m => by simp [utf8EncodeList]
  | c :: cs, m => by
      rw [List.cons_append, utf8EncodeList, utf8EncodeList,
        utf8EncodeList_append cs m, List.append_assoc]

/-- The encoding of a stripped non-empty line with a newline appended ends
in exactly one newline byte. -/
theorem buffer_shape (s : String) (hne : s ≠ "")
    (hlast : ∀ c, s.data.getLast? = some c → pyIsSpace c = false) :
    ∃ bs, utf8Encode (s ++ "\n") = bs ++ [10] ∧ bs ≠ [] ∧
      bs.getLast? ≠ some 10 := by
  have hdata : s.data ≠ [] := data_ne_nil s hne
  refine ⟨utf8Encode s, ?_, utf8EncodeList_ne_nil _ hdata, ?_⟩
  · rw [utf8Encode, utf8Encode, String.data_append, utf8EncodeList_append]
    have : utf8EncodeList "\n".data = [10] := by decide
    rw [this]
  · obtain ⟨c, hc1, hc2⟩ := utf8EncodeList_getLast? s.data hdata
    rw [utf8Encode, hc2]
    intro hcontra
    exact utf8EncodeChar_getLast_ne_10 c (hlast c hc1) 10 hcontra rfl

/-- C1: for every sequence of lines L1..Ln delivered by the serial source
before the client disconnects (each a non-empty line with no surrounding
whitespace), and with no I/O error before the disconnect, the loop sends
to the client exactly the encodings of L1..Ln in order, each followed by
one newline, none duplicated and none dropped. -/
theorem c1_lines_forwarded_in_order (reads : List String)
    (h : ∀ l ∈ reads, pyStrip l = l ∧ l ≠ "") :
    sentBuffers (runBridge false none reads PyExc.connReset) =
      reads.map fun l => utf8Encode (l ++ "\n") := by
  rw [sentBuffers_runBridge]
  exact sentBuffers_loopTrace_clean reads h

/-- Witness for C1 on the concrete line sequence A1:512, A1:513. -/
theorem c1_witness :
    (∀ l ∈ (["A1:512", "A1:513"] : List String), pyStrip l = l ∧ l ≠ "") ∧
    sentBuffers (runBridge false none ["A1:512", "A1:513"] PyExc.connReset) =
      ["A1:512", "A1:513"].map fun l => utf8Encode (l ++ "\n") :=
  ⟨by decide, c1_lines_forwarded_in_order ["A1:512", "A1:513"] (by decide)⟩

/-- C2: an iteration whose readline result strips to a non-empty line
performs exactly one write, of the stripped line followed by one newline
encoded as UTF-8, then echoes it; and the reads A1:512 then A1:513
produce the two separate writes of bytes A1:512 newline then A1:513
newline, in that order. -/
theorem c2_nonempty_line_single_write (r : String) (h : pyStrip r ≠ "") :
    stepEvents r =
      [Event.send (utf8Encode (pyStrip r ++ "\n")), Event.echo (pyStrip r),
        Event.idleSleep] ∧
    loopTrace ["A1:512", "A1:513"] =
      [Event.send [65, 49, 58, 53, 49, 50, 10], Event.echo "A1:512",
        Event.idleSleep, Event.send [65, 49, 58, 53, 49, 51, 10],
        Event.echo "A1:513", Event.idleSleep] := by
  refine ⟨?_, by decide⟩
  rw [stepEvents, if_neg h]

/-- Witness for C2 on a concrete readline result with a leading file
separator U+001C and a trailing newline, both stripped. -/
theorem c2_witness :
    pyStrip "\x1CA1:512\n" ≠ "" ∧
    (stepEvents "\x1CA1:512\n" =
        [Event.send (utf8Encode (pyStrip "\x1CA1:512\n" ++ "\n")),
          Event.echo (pyStrip "\x1CA1:512\n"), Event.idleSleep] ∧
      loopTrace ["A1:512", "A1:513"] =
        [Event.send [65, 49, 58, 53, 49, 50, 10], Event.echo "A1:512",
          Event.idleSleep, Event.send [65, 49, 58, 53, 49, 51, 10],
          Event.echo "A1:513", Event.idleSleep]) :=
  ⟨by decide, c2_nonempty_line_single_write "\x1CA1:512\n" (by decide)⟩

/-- C3: an iteration whose readline result is empty (a timeout read) or
whitespace-only writes no bytes to the client and leaves the connection
untouched: the iteration only sleeps. -/
theorem c3_empty_read_no_write (r : String) (h : pyStrip r = "") :
    stepEvents r = [Event.idleSleep] ∧
    sentBuffers (stepEvents r) = [] ∧
    (∀ b, Event.send b ∉ stepEvents r) ∧
    Event.connClose ∉ stepEvents r := by
  rw [stepEvents, if_pos h]
  exact ⟨rfl, rfl, fun b => by simp, by simp⟩

/-- Witness for C3 on a whitespace-only readline result made of a file
separator, a no-break space, a carriage return and a line feed. -/
theorem c3_witness :
    pyStrip "\x1C\u00A0\r\n" = "" ∧
    (stepEvents "\x1C\u00A0\r\n" = [Event.idleSleep] ∧
      sentBuffers (stepEvents "\x1C\u00A0\r\n") = [] ∧
      (∀ b, Event.send b ∉ stepEvents "\x1C\u00A0\r\n") ∧
      Event.connClose ∉ stepEvents "\x1C\u00A0\r\n") :=
  ⟨by decide, c3_empty_read_no_write "\x1C\u00A0\r\n" (by decide)⟩

/-- C4: when opening the serial port raises, the run reports the error and
exits: it performs no socket creation, bind, listen or accept, sends
nothing, and is not retried. -/
theorem c4_serial_fail_no_socket (sock : Option (SockStage × PyExc))
    (reads : List String) (e : PyExc) :
    runBridge true sock reads e = [Event.reportSerialError, Event.procExit] ∧
    Event.sockCreate ∉ runBridge true sock reads e ∧
    Event.sockBind ∉ runBridge true sock reads e ∧
    Event.sockListen ∉ runBridge true sock reads e ∧
    Event.sockAccept ∉ runBridge true sock reads e ∧
    (∀ b, Event.send b ∉ runBridge true sock reads e) := by
  simp [runBridge]

/-- C5: on every way the forwarding loop ends, the final cleanup closes
both the serial handle and the listening socket; in particular a client
disconnect (connection reset or broken pipe) ends the run with no
exception escaping past that cleanup. -/
theorem c5_cleanup_on_every_exit (reads : List String) (e : PyExc) :
    Event.serialClose ∈ runBridge false none reads e ∧
    Event.sockClose ∈ runBridge false none reads e ∧
    Event.connClose ∈ runBridge false none reads e ∧
    (∀ x, Event.propagate x ∉ runBridge false none reads PyExc.connReset) ∧
    (∀ x, Event.propagate x ∉ runBridge false none reads PyExc.brokenPipe) := by
  refine ⟨by simp [runBridge_ok], by simp [runBridge_ok],
    by simp [runBridge_ok], fun x => ?_, fun x => ?_⟩ <;>
    simp [runBridge_ok, caughtByLoop, handlerEvents,
      propagate_not_mem_loopTrace]

/-- C6: the loop catches exactly connection reset, broken pipe and
keyboard interrupt: the ending exception propagates out of the run if and
only if it is none of those three, and when it does propagate it does so
only after the unconditional close of the serial handle and the listening
socket. -/
theorem c6_catches_exactly (reads : List String) (e : PyExc) :
    (Event.propagate e ∈ runBridge false none reads e ↔
      e ≠ PyExc.connReset ∧ e ≠ PyExc.brokenPipe ∧ e ≠ PyExc.keyboardInt) ∧
    (caughtByLoop e = false →
      ∃ t, runBridge false none reads e =
        t ++ [Event.serialClose, Event.sockClose, Event.propagate e]) := by
  constructor
  · cases e <;>
      simp [runBridge_ok, caughtByLoop, handlerEvents,
        propagate_not_mem_loopTrace]
  · intro hnc
    refine ⟨[Event.serialOpen, Event.sockCreate, Event.sockBind,
      Event.sockListen, Event.sockAccept] ++ loopTrace reads ++
      [Event.connClose] ++ handlerEvents e, ?_⟩
    rw [runBridge_ok, hnc]
    simp

/-- Witness for C6 at an uncaught exception, discharging the implication
of its second conjunct. -/
theorem c6_witness :
    caughtByLoop (PyExc.otherErr 0) = false ∧
    ∃ t, runBridge false none [] (PyExc.otherErr 0) =
      t ++ [Event.serialClose, Event.sockClose,
        Event.propagate (PyExc.otherErr 0)] :=
  ⟨by decide, (c6_catches_exactly [] (PyExc.otherErr 0)).2 (by decide)⟩

/-- C7: the buffers written to the client during a run are exactly the
encodings, with one appended newline, of the lines echoed to the local
output stream, in the same order: a line is forwarded if and only if it
is echoed. -/
theorem c7_forwarded_iff_echoed (reads : List String) (e : PyExc) :
    sentBuffers (runBridge false none reads e) =
      (echoedLines (runBridge false none reads e)).map
        fun l => utf8Encode (l ++ "\n") := by
  rw [sentBuffers_runBridge, echoedLines_runBridge]
  exact sentBuffers_loopTrace_eq_map_echoed reads

/-- C8: a successful run accepts exactly one client connection: the accept
happens once, right after socket creation, bind and listen and before
every loop event, and no later event is an accept. -/
theorem c8_single_accept (reads : List String) (e : PyExc) :
    ∃ post,
      runBridge false none reads e =
        [Event.serialOpen, Event.sockCreate, Event.sockBind,
            Event.sockListen] ++ Event.sockAccept :: post ∧
      Event.sockAccept ∉ post := by
  refine ⟨loopTrace reads ++ [Event.connClose] ++ handlerEvents e ++
    [Event.serialClose, Event.sockClose] ++
    (if caughtByLoop e then [] else [Event.propagate e]), ?_, ?_⟩
  · rw [runBridge_ok]
    simp
  · cases e <;>
      simp [handlerEvents, caughtByLoop, sockAccept_not_mem_loopTrace]

/-- C9: when a socket setup call (create, bind, listen or accept) raises
after the serial port opened, the exception propagates with no handler
running, and neither the serial handle nor the socket is ever closed: the
protected region only begins after accept returns. -/
theorem c9_setup_fail_leaks_serial (st : SockStage) (e : PyExc)
    (reads : List String) (le : PyExc) :
    (∃ t, runBridge false (some (st, e)) reads le =
      t ++ [Event.propagate e]) ∧
    Event.serialOpen ∈ runBridge false (some (st, e)) reads le ∧
    Event.serialClose ∉ runBridge false (some (st, e)) reads le ∧
    Event.sockClose ∉ runBridge false (some (st, e)) reads le ∧
    Event.procExit ∉ runBridge false (some (st, e)) reads le ∧
    Event.reportDisconnect ∉ runBridge false (some (st, e)) reads le ∧
    Event.reportInterrupt ∉ runBridge false (some (st, e)) reads le ∧
    Event.sockAccept ∉ runBridge false (some (st, e)) reads le := by
  refine ⟨⟨Event.serialOpen :: sockFailEvents st, ?_⟩, ?_, ?_, ?_, ?_, ?_,
    ?_, ?_⟩ <;>
    cases st <;> simp [runBridge, sockFailEvents]

/-- C10: every byte buffer written to the client is the UTF-8 encoding of
a non-empty line with no leading or trailing whitespace followed by one
newline: it ends in exactly one newline byte and is never the lone
newline buffer. -/
theorem c10_sent_buffer_shape (reads : List String) (e : PyExc)
    (b : List Nat) (hb : b ∈ sentBuffers (runBridge false none reads e)) :
    ∃ s, s ≠ "" ∧
      (∀ c, s.data.head? = some c → pyIsSpace c = false) ∧
      (∀ c, s.data.getLast? = some c → pyIsSpace c = false) ∧
      b = utf8Encode (s ++ "\n") ∧
      (∃ bs, b = bs ++ [10] ∧ bs ≠ [] ∧ bs.getLast? ≠ some 10) ∧
      b ≠ [10] := by
  rw [sentBuffers_runBridge] at hb
  obtain ⟨r, hr, rfl⟩ := mem_sentBuffers_loopTrace reads _ hb
  obtain ⟨bs, hbs, hbsne, hbl⟩ :=
    buffer_shape (pyStrip r) hr (pyStrip_getLast_not_space r)
  refine ⟨pyStrip r, hr, fun c hc => pyStrip_head_not_space r c hc,
    pyStrip_getLast_not_space r, rfl, ⟨bs, hbs, hbsne, hbl⟩, ?_⟩
  rw [hbs]
  intro hcontra
  have hlen := congrArg List.length hcontra
  simp at hlen
  exact hbsne hlen

/-- Witness for C10 on the buffer produced by the read A1:512. -/
theorem c10_witness :
    [65, 49, 58, 53, 49, 50, 10] ∈
      sentBuffers (runBridge false none ["A1:512"] PyExc.connReset) ∧
    ∃ s, s ≠ "" ∧
      (∀ c, s.data.head? = some c → pyIsSpace c = false) ∧
      (∀ c, s.data.getLast? = some c → pyIsSpace c = false) ∧
      [65, 49, 58, 53, 49, 50, 10] = utf8Encode (s ++ "\n") ∧
      (∃ bs, ([65, 49, 58, 53, 49, 50, 10] : List Nat) = bs ++ [10] ∧
        bs ≠ [] ∧ bs.getLast? ≠ some 10) ∧
      ([65, 49, 58, 53, 49, 50, 10] : List Nat) ≠ [10] :=
  ⟨by decide,
    c10_sent_buffer_shape ["A1:512"] PyExc.connReset
      [65, 49, 58, 53, 49, 50, 10] (by decide)⟩

end ServerTCP
